/-
Verification of the query-parameter-to-database-filter compiler of the
TruEstate sales listing service.

The development shallowly embeds the TypeScript sources
  backend/utils/validation.ts  (validateQueryParams, parseFilters,
                                parseArrayParam, isValidDate)
  backend/utils/query.ts       (buildWhereClause)
  backend/services (SalesService.getSales, getFilterOptions, buildOrderBy)
into Lean.  JavaScript-level behaviour that the code relies on is modelled
explicitly:
  * string truthiness (empty string is falsy, arrays are truthy),
  * String.prototype.trim (modelled with Char.isWhitespace),
  * parseInt(s, 10) / parseFloat(s) prefix parsing (decimal literals;
    the exponent form of parseFloat is not modelled, no claim uses it),
  * new Date("YYYY-MM-DD") parsing an ISO calendar date to a UTC-midnight
    millisecond timestamp (invalid dates give none, the NaN timestamp),
  * setHours(23,59,59,999) under a UTC server timezone,
  * Array coercion to a comma-joined string where the code feeds a
    possibly-array query value to parseInt / parseFloat / new Date.
Machine numbers are modelled as Int (timestamps, integers) and Rat
(decimal amounts); only parsing and order comparisons occur, which these
model faithfully.
-/
import Mathlib

/-! ## JavaScript string helpers -/

/-- Left trim on the character list: drop leading whitespace. -/
def trimLeftChars (l : List Char) : List Char := l.dropWhile Char.isWhitespace

/-- Right trim on the character list: drop trailing whitespace. -/
def trimRightChars (l : List Char) : List Char :=
  (l.reverse.dropWhile Char.isWhitespace).reverse

/-- Models JavaScript `String.prototype.trim`. -/
def jsTrim (s : String) : String := ⟨trimRightChars (trimLeftChars s.data)⟩

/-- A raw HTTP query value as Express delivers it: a string, or an array of
strings when the key is repeated. -/
inductive RawValue where
  | str (s : String)
  | arr (l : List String)
deriving DecidableEq

/-- JavaScript string coercion of a raw query value (arrays join with a
comma), as applied when the code passes the value to `parseInt`,
`parseFloat` or `new Date`. -/
def rawToString : RawValue → String
  | .str s => s
  | .arr l => String.intercalate "," l

/-- Coercion for an optional raw value (absent behaves as the empty string;
only reached in the model under a truthiness guard). -/
def rawToStr (o : Option RawValue) : String :=
  match o with
  | some v => rawToString v
  | none => ""

/-- JavaScript truthiness of an optional query value: `undefined` is falsy,
an empty string is falsy, every array (even empty) is truthy. -/
def rawTruthy (o : Option RawValue) : Bool :=
  match o with
  | none => false
  | some (.str s) => s ≠ ""
  | some (.arr _) => true

/-- Is the raw value a string (JavaScript `typeof v === "string"`)? -/
def rawIsString (o : Option RawValue) : Bool :=
  match o with
  | some (.str _) => true
  | _ => false

/-- Numeric value of the leading decimal-digit run of `l`; `none` when `l`
does not start with a digit.  Helper for the `parseInt` model. -/
def digitRunVal (l : List Char) : Option Nat :=
  let ds := l.takeWhile Char.isDigit
  if ds.length = 0 then none
  else some (ds.foldl (fun a c => a * 10 + (c.toNat - 48)) 0)

/-- Models JavaScript `parseInt(s, 10)`: skip leading whitespace, optional
sign, then the longest digit prefix; `none` models `NaN`. -/
def jsParseInt (s : String) : Option Int :=
  match s.data.dropWhile Char.isWhitespace with
  | '-' :: rest => (digitRunVal rest).map (fun n => -(n : Int))
  | '+' :: rest => (digitRunVal rest).map (fun n => (n : Int))
  | l => (digitRunVal l).map (fun n => (n : Int))

/-- Numeric value of a digit run read most-significant first. -/
def digitsToNat (ds : List Char) : Nat :=
  ds.foldl (fun a c => a * 10 + (c.toNat - 48)) 0

/-- Unsigned part of the `parseFloat` model: leading digits, then an
optional point and fractional digits; `none` (NaN) when no digit at all.
The value `i.f` is the rational `(i * 10^k + f) / 10^k` with `k`
fractional digits, built with `mkRat` to stay kernel-computable. -/
def jsParseFloatCore (l : List Char) : Option Rat :=
  let intDs := l.takeWhile Char.isDigit
  let rest := l.drop intDs.length
  match rest with
  | '.' :: rest2 =>
    let fracDs := rest2.takeWhile Char.isDigit
    if intDs.length = 0 ∧ fracDs.length = 0 then none
    else some (mkRat
      (digitsToNat intDs * 10 ^ fracDs.length + digitsToNat fracDs)
      (10 ^ fracDs.length))
  | _ => if intDs.length = 0 then none else some (mkRat (digitsToNat intDs) 1)

/-- Models JavaScript `parseFloat(s)` on decimal literals: skip leading
whitespace, optional sign, then the longest decimal-number prefix. -/
def jsParseFloat (s : String) : Option Rat :=
  match s.data.dropWhile Char.isWhitespace with
  | '-' :: rest => (jsParseFloatCore rest).map (fun q => -q)
  | '+' :: rest => jsParseFloatCore rest
  | l => jsParseFloatCore l

/-! ## Calendar dates -/

/-- Length in days of month `m` of year `y` (Gregorian). -/
def daysInMonth (y m : Nat) : Nat :=
  if m = 2 then
    if y % 4 = 0 ∧ (y % 100 ≠ 0 ∨ y % 400 = 0) then 29 else 28
  else if m = 4 ∨ m = 6 ∨ m = 9 ∨ m = 11 then 30
  else 31

/-- Days since 1970-01-01 of the civil date `y-m-d` (Howard Hinnant's
days-from-civil algorithm). -/
def daysFromCivil (y : Int) (m d : Nat) : Int :=
  let y' : Int := if m ≤ 2 then y - 1 else y
  let era : Int := Int.fdiv y' 400
  let yoe : Int := y' - era * 400
  let mp : Nat := if 2 < m then m - 3 else m + 9
  let doy : Int := (153 * (mp : Int) + 2) / 5 + (d : Int) - 1
  let doe : Int := yoe * 365 + yoe / 4 - yoe / 100 + doy
  era * 146097 + doe - 719468

/-- Decimal value of a digit character. -/
def digitVal (c : Char) : Option Nat :=
  if c.isDigit then some (c.toNat - 48) else none

/-- Parse an ISO `YYYY-MM-DD` calendar date to its day number since the
epoch; `none` when the shape or the calendar ranges are invalid. -/
def parseISODays (s : String) : Option Int :=
  match s.data with
  | [y1, y2, y3, y4, '-', m1, m2, '-', d1, d2] => do
    let a ← digitVal y1
    let b ← digitVal y2
    let c ← digitVal y3
    let d ← digitVal y4
    let e ← digitVal m1
    let f ← digitVal m2
    let g ← digitVal d1
    let h ← digitVal d2
    let y := 1000 * a + 100 * b + 10 * c + d
    let m := 10 * e + f
    let day := 10 * g + h
    if 1 ≤ m ∧ m ≤ 12 ∧ 1 ≤ day ∧ day ≤ daysInMonth y m then
      some (daysFromCivil (y : Int) m day)
    else none
  | _ => none

/-- Millisecond count of one day. -/
def msPerDay : Int := 86400000

/-- Models `new Date(s).getTime()` for an ISO `YYYY-MM-DD` string: the
UTC-midnight millisecond timestamp of that day; `none` models an Invalid
Date (NaN timestamp). -/
def jsNewDate (s : String) : Option Int :=
  (parseISODays s).map (fun d => msPerDay * d)

/-- Models `isValidDate` of validation.ts: `new Date(s)` parses. -/
def isValidDate (s : String) : Bool := (jsNewDate s).isSome

/-- Models `d.setHours(23, 59, 59, 999)` on a timestamp under a UTC server
timezone: move to the last millisecond of the same calendar day. -/
def endOfDayUTC (ms : Int) : Int := ms / msPerDay * msPerDay + 86399999

/-! ## Data model -/

/-- One sales record as stored (Prisma model `Sales`).  The transaction
date is a millisecond timestamp; decimal amounts are rationals. -/
structure Sales where
  id : String
  date : Int
  customerId : String
  customerName : String
  phoneNumber : String
  gender : String
  age : Int
  customerRegion : String
  customerType : String
  productId : String
  productName : String
  brand : String
  productCategory : String
  tags : List String
  quantity : Int
  pricePerUnit : Rat
  discountPercentage : Rat
  totalAmount : Rat
  finalAmount : Rat
  paymentMethod : String
  orderStatus : String
  deliveryType : String
  storeId : String
  storeLocation : String
  salespersonId : String
  employeeName : String
deriving DecidableEq

/-- The `SalesFilters` interface of sales.type.ts. -/
structure SalesFilters where
  customerRegion : Option (List String) := none
  gender : Option (List String) := none
  ageMin : Option Int := none
  ageMax : Option Int := none
  productCategory : Option (List String) := none
  tags : Option (List String) := none
  paymentMethod : Option (List String) := none
  orderStatus : Option (List String) := none
  deliveryType : Option (List String) := none
  brand : Option (List String) := none
  dateFrom : Option String := none
  dateTo : Option String := none
  priceMin : Option Rat := none
  priceMax : Option Rat := none
deriving DecidableEq

/-- The `SalesQueryParams` interface of sales.type.ts. -/
structure SalesQueryParams where
  page : Option Int := none
  pageSize : Option Int := none
  search : Option String := none
  sort : Option String := none
  filters : Option SalesFilters := none
deriving DecidableEq

/-! ## The compiled where-clause (Prisma.SalesWhereInput, shallowly) -/

/-- The string-valued record fields that receive a plain `in` membership
condition in buildWhereClause. -/
inductive StrField where
  | customerRegion
  | gender
  | productCategory
  | paymentMethod
  | orderStatus
  | deliveryType
  | brand
deriving DecidableEq

/-- Projection of a record at a string filter field. -/
def Sales.getStr (r : Sales) : StrField → String
  | .customerRegion => r.customerRegion
  | .gender => r.gender
  | .productCategory => r.productCategory
  | .paymentMethod => r.paymentMethod
  | .orderStatus => r.orderStatus
  | .deliveryType => r.deliveryType
  | .brand => r.brand

/-- One condition object pushed into the `conditions` array of
buildWhereClause.  The range bounds mirror the object shape the code
builds: an absent bound is `none`; a date bound carries the result of
`new Date(...)`, whose Invalid-Date (NaN) outcome is the inner `none`. -/
inductive SalesCondition where
  | searchOr (term : String)
  | fieldIn (fld : StrField) (vs : List String)
  | tagsHasSome (vs : List String)
  | ageRange (gte lte : Option Int)
  | dateRange (gte lte : Option (Option Int))
  | priceRange (gte lte : Option Rat)
deriving DecidableEq

/-- The value buildWhereClause returns: `{}` or `{ AND: conditions }`. -/
inductive SalesWhereInput where
  | empty
  | and (conds : List SalesCondition)
deriving DecidableEq

/-- Case-insensitive substring containment over lowered character lists
(Prisma `contains` with `mode: 'insensitive'`). -/
def startsWithChars : List Char → List Char → Bool
  | [], _ => true
  | _ :: _, [] => false
  | a :: as, b :: bs => a == b && startsWithChars as bs

/-- Does `needle` occur as a contiguous run inside `hay`? -/
def hasSubChars (needle : List Char) : List Char → Bool
  | [] => needle.isEmpty
  | c :: rest => startsWithChars needle (c :: rest) || hasSubChars needle rest

/-- Case-insensitive `contains` of Prisma. -/
def containsCI (hay needle : String) : Bool :=
  hasSubChars (needle.toLower.data) (hay.toLower.data)

/-- Truth value of one condition at a record.  A date bound whose
`new Date` failed (inner `none`, the NaN timestamp) compares false, as
NaN comparisons do. -/
def evalCondition (r : Sales) : SalesCondition → Bool
  | .searchOr term => containsCI r.customerName term || containsCI r.phoneNumber term
  | .fieldIn fld vs => vs.contains (r.getStr fld)
  | .tagsHasSome vs => vs.any (fun v => r.tags.contains v)
  | .ageRange gte lte =>
    (match gte with | none => true | some a => decide (a ≤ r.age)) &&
    (match lte with | none => true | some a => decide (r.age ≤ a))
  | .dateRange gte lte =>
    (match gte with
     | none => true
     | some none => false
     | some (some t) => decide (t ≤ r.date)) &&
    (match lte with
     | none => true
     | some none => false
     | some (some t) => decide (r.date ≤ t))
  | .priceRange gte lte =>
    (match gte with | none => true | some a => decide (a ≤ r.finalAmount)) &&
    (match lte with | none => true | some a => decide (r.finalAmount ≤ a))

/-- Truth value of the whole where-clause at a record: `{}` matches
everything, `AND` is the conjunction. -/
def evalWhere (w : SalesWhereInput) (r : Sales) : Bool :=
  match w with
  | .empty => true
  | .and l => l.all (evalCondition r)

/-! ## buildWhereClause (backend/utils/query.ts) -/

/-- The search block: pushed when `search && search.trim()` is truthy. -/
def searchSeg (search : Option String) : List SalesCondition :=
  match search with
  | some s => if s ≠ "" ∧ jsTrim s ≠ "" then [.searchOr (jsTrim s)] else []
  | none => []

/-- A membership block: pushed when the filter list is present and
non-empty (`filters.f && filters.f.length > 0`). -/
def inSeg (fld : StrField) (o : Option (List String)) : List SalesCondition :=
  match o with
  | some l => if 0 < l.length then [.fieldIn fld l] else []
  | none => []

/-- The tags block (Prisma `hasSome`). -/
def tagsSeg (o : Option (List String)) : List SalesCondition :=
  match o with
  | some l => if 0 < l.length then [.tagsHasSome l] else []
  | none => []

/-- The age-range block: pushed when either bound is not `undefined`. -/
def ageSeg (aMin aMax : Option Int) : List SalesCondition :=
  if aMin.isSome || aMax.isSome then [.ageRange aMin aMax] else []

/-- String-option truthiness (`filters.dateFrom ||` …). -/
def strOptTruthy (o : Option String) : Bool :=
  match o with
  | some s => s ≠ ""
  | none => false

/-- The date-range block: pushed when either date string is truthy; the
lower bound is `new Date(dateFrom)`, the upper bound is `new Date(dateTo)`
moved to 23:59:59.999 of its day. -/
def dateSeg (dFrom dTo : Option String) : List SalesCondition :=
  if strOptTruthy dFrom || strOptTruthy dTo then
    [.dateRange
      (match dFrom with
       | some s => if s ≠ "" then some (jsNewDate s) else none
       | none => none)
      (match dTo with
       | some s => if s ≠ "" then some ((jsNewDate s).map endOfDayUTC) else none
       | none => none)]
  else []

/-- The price-range block over `finalAmount`. -/
def priceSeg (pMin pMax : Option Rat) : List SalesCondition :=
  if pMin.isSome || pMax.isSome then [.priceRange pMin pMax] else []

/-- The `conditions` array of buildWhereClause, in push order. -/
def whereConditions (search : Option String) (filters : Option SalesFilters) :
    List SalesCondition :=
  searchSeg search ++
  (match filters with
   | none => []
   | some f =>
     inSeg .customerRegion f.customerRegion ++
     inSeg .gender f.gender ++
     ageSeg f.ageMin f.ageMax ++
     inSeg .productCategory f.productCategory ++
     tagsSeg f.tags ++
     inSeg .paymentMethod f.paymentMethod ++
     inSeg .orderStatus f.orderStatus ++
     inSeg .deliveryType f.deliveryType ++
     inSeg .brand f.brand ++
     dateSeg f.dateFrom f.dateTo ++
     priceSeg f.priceMin f.priceMax)

/-- buildWhereClause of backend/utils/query.ts: `{}` when no condition was
pushed, else the conjunction of the pushed conditions. -/
def buildWhereClause (search : Option String) (filters : Option SalesFilters) :
    SalesWhereInput :=
  let conditions := whereConditions search filters
  if conditions = [] then .empty else .and conditions

/-- Number of conditions carried by a compiled where-clause. -/
def condCount (w : SalesWhereInput) : Nat :=
  match w with
  | .empty => 0
  | .and l => l.length

/-! ## Parameter validation (backend/utils/validation.ts) -/

/-- Split accumulator: models `String.prototype.split(',')` over the
character list, `acc` holding the current token reversed. -/
def splitCommaAux : List Char → List Char → List String
  | [], acc => [String.mk acc.reverse]
  | c :: rest, acc =>
    if c = ',' then String.mk acc.reverse :: splitCommaAux rest []
    else splitCommaAux rest (c :: acc)

/-- Models JavaScript `s.split(',')` (every empty token kept, `""` gives
`[""]`). -/
def jsSplitComma (s : String) : List String := splitCommaAux s.data []

/-- parseArrayParam: an array keeps its string items whose trim is truthy,
verbatim; a string is split on commas, each token trimmed, empty tokens
dropped. -/
def parseArrayParam : RawValue → List String
  | .arr l => l.filter (fun item => jsTrim item ≠ "")
  | .str s => ((jsSplitComma s).map jsTrim).filter (fun x => x ≠ "")

/-- An integer query field of parseFilters: kept only when truthy, parseInt
succeeds and the value is nonnegative. -/
def parseNonnegInt (o : Option RawValue) : Option Int :=
  if rawTruthy o then
    match jsParseInt (rawToStr o) with
    | some n => if 0 ≤ n then some n else none
    | none => none
  else none

/-- A decimal query field of parseFilters: kept only when truthy,
parseFloat succeeds and the value is nonnegative. -/
def parseNonnegFloat (o : Option RawValue) : Option Rat :=
  if rawTruthy o then
    match jsParseFloat (rawToStr o) with
    | some q => if 0 ≤ q then some q else none
    | none => none
  else none

/-- A multi-select query field of parseFilters: parsed through
parseArrayParam when truthy. -/
def parseListParam (o : Option RawValue) : Option (List String) :=
  if rawTruthy o then
    match o with
    | some v => some (parseArrayParam v)
    | none => none
  else none

/-- A date query field of parseFilters: the (string-coerced) raw value is
kept when truthy and `isValidDate` accepts it. -/
def parseDateParam (o : Option RawValue) : Option String :=
  if rawTruthy o ∧ isValidDate (rawToStr o) then some (rawToStr o) else none

/-- The raw query mapping: each key the validator reads, as Express
delivers it (absent, a string, or a string array). -/
structure RawQuery where
  page : Option RawValue := none
  pageSize : Option RawValue := none
  search : Option RawValue := none
  sort : Option RawValue := none
  customerRegion : Option RawValue := none
  gender : Option RawValue := none
  productCategory : Option RawValue := none
  tags : Option RawValue := none
  paymentMethod : Option RawValue := none
  orderStatus : Option RawValue := none
  deliveryType : Option RawValue := none
  brand : Option RawValue := none
  ageMin : Option RawValue := none
  ageMax : Option RawValue := none
  dateFrom : Option RawValue := none
  dateTo : Option RawValue := none
  priceMin : Option RawValue := none
  priceMax : Option RawValue := none
deriving DecidableEq

/-- parseFilters of validation.ts. -/
def parseFilters (q : RawQuery) : SalesFilters :=
  { customerRegion := parseListParam q.customerRegion
    gender := parseListParam q.gender
    productCategory := parseListParam q.productCategory
    tags := parseListParam q.tags
    paymentMethod := parseListParam q.paymentMethod
    orderStatus := parseListParam q.orderStatus
    deliveryType := parseListParam q.deliveryType
    brand := parseListParam q.brand
    ageMin := parseNonnegInt q.ageMin
    ageMax := parseNonnegInt q.ageMax
    dateFrom := parseDateParam q.dateFrom
    dateTo := parseDateParam q.dateTo
    priceMin := parseNonnegFloat q.priceMin
    priceMax := parseNonnegFloat q.priceMax }

/-- validateQueryParams of validation.ts: page defaults to 1, pageSize to
10 (ceiling 100), search is trimmed when a truthy string, sort passes
through when a truthy string, and filters are always attached. -/
def validateQueryParams (q : RawQuery) : SalesQueryParams :=
  { page :=
      if rawTruthy q.page then
        match jsParseInt (rawToStr q.page) with
        | some n => if 0 < n then some n else some 1
        | none => some 1
      else some 1
    pageSize :=
      if rawTruthy q.pageSize then
        match jsParseInt (rawToStr q.pageSize) with
        | some n => if 0 < n ∧ n ≤ 100 then some n else some 10
        | none => some 10
      else some 10
    search :=
      match q.search with
      | some (.str s) => if s ≠ "" then some (jsTrim s) else none
      | _ => none
    sort :=
      match q.sort with
      | some (.str s) => if s ≠ "" then some s else none
      | _ => none
    filters := some (parseFilters q) }

/-! ## Sort resolver (SalesService.buildOrderBy) -/

/-- Sortable fields. -/
inductive SortField where
  | date
  | quantity
  | customerName
deriving DecidableEq

/-- Sort directions. -/
inductive SortDir where
  | asc
  | desc
deriving DecidableEq

/-- A single-field order directive. -/
structure OrderBySpec where
  field : SortField
  dir : SortDir
deriving DecidableEq

/-- buildOrderBy of the sales service: the `!sort` guard (absent or empty
string) and the token switch, defaulting to newest-first by date. -/
def buildOrderBy (sort : Option String) : OrderBySpec :=
  match sort with
  | none => ⟨.date, .desc⟩
  | some s =>
    if s = "" then ⟨.date, .desc⟩
    else if s = "date-newest" then ⟨.date, .desc⟩
    else if s = "date-oldest" then ⟨.date, .asc⟩
    else if s = "quantity-high" then ⟨.quantity, .desc⟩
    else if s = "quantity-low" then ⟨.quantity, .asc⟩
    else if s = "name-asc" then ⟨.customerName, .asc⟩
    else if s = "name-desc" then ⟨.customerName, .desc⟩
    else ⟨.date, .desc⟩

/-- The ordering relation a directive denotes on records (the storage
engine's sort; ties resolve arbitrarily, callers must not depend on it). -/
def orderKeyLe (o : OrderBySpec) (a b : Sales) : Prop :=
  match o.field, o.dir with
  | .date, .asc => a.date ≤ b.date
  | .date, .desc => b.date ≤ a.date
  | .quantity, .asc => a.quantity ≤ b.quantity
  | .quantity, .desc => b.quantity ≤ a.quantity
  | .customerName, .asc => a.customerName ≤ b.customerName
  | .customerName, .desc => b.customerName ≤ a.customerName

instance (o : OrderBySpec) : DecidableRel (orderKeyLe o) := fun a b => by
  unfold orderKeyLe
  rcases o with ⟨f, d⟩
  rcases f <;> rcases d <;> dsimp only [] <;> infer_instance

/-! ## Service layer (getSales, getFilterOptions) -/

/-- One record reshaped under the external display-name contract. -/
structure MappedSales where
  transactionId : String
  dateStr : String
  customerId : String
  customerName : String
  phoneNumber : String
  gender : String
  age : Int
  customerRegion : String
  customerType : String
  productId : String
  productName : String
  brand : String
  productCategory : String
  tags : List String
  quantity : Int
  pricePerUnit : Rat
  discountPercentage : Rat
  totalAmount : Rat
  finalAmount : Rat
  paymentMethod : String
  orderStatus : String
  deliveryType : String
  storeId : String
  storeLocation : String
  salespersonId : String
  employeeName : String
deriving DecidableEq

/-- Civil date (year, month, day) of a day number since the epoch
(Howard Hinnant's civil-from-days algorithm). -/
def civilFromDays (z0 : Int) : Int × Nat × Nat :=
  let z := z0 + 719468
  let era : Int := z / 146097
  let doe : Nat := (z - era * 146097).toNat
  let yoe : Nat := (doe - doe / 1460 + doe / 36524 - doe / 146096) / 365
  let doy : Nat := doe - (365 * yoe + yoe / 4 - yoe / 100)
  let mp : Nat := (5 * doy + 2) / 153
  let d : Nat := doy - (153 * mp + 2) / 5 + 1
  let m : Nat := if mp < 10 then mp + 3 else mp - 9
  let y : Int := (yoe : Int) + era * 400 + (if m ≤ 2 then 1 else 0)
  (y, m, d)

/-- Zero-padded decimal rendering. -/
def padNum (width n : Nat) : String :=
  let s := toString n
  String.mk (List.replicate (width - s.length) '0') ++ s

/-- Models `date.toISOString().split('T')[0]`: the UTC calendar date of a
millisecond timestamp, as `YYYY-MM-DD`. -/
def formatISODate (ms : Int) : String :=
  match civilFromDays (ms / msPerDay) with
  | (y, m, d) =>
    (if y < 0 then "-" else "") ++ padNum 4 y.natAbs ++ "-" ++
      padNum 2 m ++ "-" ++ padNum 2 d

/-- The field-renaming map applied to each returned record. -/
def mapSales (r : Sales) : MappedSales :=
  { transactionId := r.id
    dateStr := formatISODate r.date
    customerId := r.customerId
    customerName := r.customerName
    phoneNumber := r.phoneNumber
    gender := r.gender
    age := r.age
    customerRegion := r.customerRegion
    customerType := r.customerType
    productId := r.productId
    productName := r.productName
    brand := r.brand
    productCategory := r.productCategory
    tags := r.tags
    quantity := r.quantity
    pricePerUnit := r.pricePerUnit
    discountPercentage := r.discountPercentage
    totalAmount := r.totalAmount
    finalAmount := r.finalAmount
    paymentMethod := r.paymentMethod
    orderStatus := r.orderStatus
    deliveryType := r.deliveryType
    storeId := r.storeId
    storeLocation := r.storeLocation
    salespersonId := r.salespersonId
    employeeName := r.employeeName }

/-- The response shape of getSales. -/
structure SalesResponse where
  data : List MappedSales
  page : Int
  pageSize : Int
  totalPages : Int
  totalRecords : Nat
deriving DecidableEq

/-- SalesService.getSales over a pure snapshot of the store: filter with
the compiled where-clause, sort by the order directive, apply the
`skip`/`take` window, rename fields, and compute
`Math.ceil(totalRecords / pageSize)` alongside the full matching count.
The storage engine itself is modelled as the list `db`; the storage-error
path (try/catch) has no counterpart on a pure snapshot. -/
def getSales (db : List Sales) (params : SalesQueryParams) : SalesResponse :=
  let page := params.page.getD 1
  let pageSize := params.pageSize.getD 10
  let skip := (page - 1) * pageSize
  let whereClause := buildWhereClause params.search params.filters
  let orderBy := buildOrderBy params.sort
  let matching := db.filter (fun r => evalWhere whereClause r)
  let sorted := List.insertionSort (orderKeyLe orderBy) matching
  let rawData := (sorted.drop skip.toNat).take pageSize.toNat
  { data := rawData.map mapSales
    page := page
    pageSize := pageSize
    totalPages := ⌈(matching.length : ℚ) / (pageSize : ℚ)⌉
    totalRecords := matching.length }

/-- The filter-options catalog shape. -/
structure FilterOptions where
  customerRegions : List String
  genders : List String
  productCategories : List String
  paymentMethods : List String
  orderStatuses : List String
  deliveryTypes : List String
  brands : List String
  tags : List String
deriving DecidableEq

/-- `Array.from(new Set(xs.filter(Boolean))).sort()`: drop falsy (empty)
strings, deduplicate, sort.  The JS Set keeps first occurrences and
Mathlib's dedup keeps last ones, but the subsequent sort erases the
difference: both sides are the same sorted duplicate-free list. -/
def distinctSorted (l : List String) : List String :=
  List.insertionSort (fun a b : String => a ≤ b)
    ((l.filter (fun s => s ≠ "")).dedup)

/-- SalesService.getFilterOptions over a pure snapshot of the store. -/
def getFilterOptions (db : List Sales) : FilterOptions :=
  { customerRegions := distinctSorted (db.map (fun r => r.customerRegion))
    genders := distinctSorted (db.map (fun r => r.gender))
    productCategories := distinctSorted (db.map (fun r => r.productCategory))
    paymentMethods := distinctSorted (db.map (fun r => r.paymentMethod))
    orderStatuses := distinctSorted (db.map (fun r => r.orderStatus))
    deliveryTypes := distinctSorted (db.map (fun r => r.deliveryType))
    brands := distinctSorted (db.map (fun r => r.brand))
    tags := distinctSorted (db.flatMap (fun r => r.tags)) }

/-! ## Spec-side predicates

These definitions restate, in the specification's own words, what the
compiled predicate is supposed to mean; the refinement theorems compare
them against the evaluation of `buildWhereClause`. -/

/-- Spec: a present search term (non-empty after trimming) requires the
customer name or the phone number to contain it, case-insensitively. -/
def specSearch (search : Option String) (r : Sales) : Bool :=
  match search with
  | some s =>
    if jsTrim s = "" then true
    else containsCI r.customerName (jsTrim s) || containsCI r.phoneNumber (jsTrim s)
  | none => true

/-- Spec: a multi-select filter with at least one value requires set
membership of the record's field value; absent or empty is unconstrained. -/
def specIn (fld : StrField) (o : Option (List String)) (r : Sales) : Bool :=
  match o with
  | some l => if l = [] then true else l.contains (r.getStr fld)
  | none => true

/-- Spec: a non-empty tags filter requires the record's tag set to
intersect the requested set. -/
def specTags (o : Option (List String)) (r : Sales) : Bool :=
  match o with
  | some l => if l = [] then true else r.tags.any (fun t => l.contains t)
  | none => true

/-- Spec: each present age bound constrains the age inclusively. -/
def specAge (aMin aMax : Option Int) (r : Sales) : Bool :=
  (match aMin with | some a => decide (a ≤ r.age) | none => true) &&
  (match aMax with | some a => decide (r.age ≤ a) | none => true)

/-- Spec: a present `dateFrom` lower-bounds the transaction date
inclusively at that day's start; a present `dateTo` upper-bounds it
inclusively at that day's end, 23:59:59.999 (the day start plus
86399999 ms).  An unparseable date string constrains to nothing matching,
mirroring the NaN comparison. -/
def specDate (dFrom dTo : Option String) (r : Sales) : Bool :=
  (match dFrom with
   | some s =>
     if s = "" then true
     else match jsNewDate s with
          | some t => decide (t ≤ r.date)
          | none => false
   | none => true) &&
  (match dTo with
   | some s =>
     if s = "" then true
     else match jsNewDate s with
          | some t => decide (r.date ≤ t + 86399999)
          | none => false
   | none => true)

/-- Spec: each present price bound constrains the final amount
inclusively. -/
def specPrice (pMin pMax : Option Rat) (r : Sales) : Bool :=
  (match pMin with | some a => decide (a ≤ r.finalAmount) | none => true) &&
  (match pMax with | some a => decide (r.finalAmount ≤ a) | none => true)

/-- Spec: the predicate is the conjunction of the per-filter conditions;
every absent filter contributes `true`. -/
def specMatches (search : Option String) (filters : Option SalesFilters)
    (r : Sales) : Bool :=
  specSearch search r &&
  (match filters with
   | none => true
   | some f =>
     specIn .customerRegion f.customerRegion r &&
     specIn .gender f.gender r &&
     specAge f.ageMin f.ageMax r &&
     specIn .productCategory f.productCategory r &&
     specTags f.tags r &&
     specIn .paymentMethod f.paymentMethod r &&
     specIn .orderStatus f.orderStatus r &&
     specIn .deliveryType f.deliveryType r &&
     specIn .brand f.brand r &&
     specDate f.dateFrom f.dateTo r &&
     specPrice f.priceMin f.priceMax r)

/-- Spec: how many conditions the compiled predicate should carry — one
per present filter. -/
def presentCount (search : Option String) (filters : Option SalesFilters) : Nat :=
  (match search with
   | some s => if jsTrim s = "" then 0 else 1
   | none => 0) +
  (match filters with
   | none => 0
   | some f =>
     (match f.customerRegion with | some l => if l = [] then 0 else 1 | none => 0) +
     (match f.gender with | some l => if l = [] then 0 else 1 | none => 0) +
     (if f.ageMin.isSome ∨ f.ageMax.isSome then 1 else 0) +
     (match f.productCategory with | some l => if l = [] then 0 else 1 | none => 0) +
     (match f.tags with | some l => if l = [] then 0 else 1 | none => 0) +
     (match f.paymentMethod with | some l => if l = [] then 0 else 1 | none => 0) +
     (match f.orderStatus with | some l => if l = [] then 0 else 1 | none => 0) +
     (match f.deliveryType with | some l => if l = [] then 0 else 1 | none => 0) +
     (match f.brand with | some l => if l = [] then 0 else 1 | none => 0) +
     (if strOptTruthy f.dateFrom ∨ strOptTruthy f.dateTo then 1 else 0) +
     (if f.priceMin.isSome ∨ f.priceMax.isSome then 1 else 0))

/-- The well-formedness invariant of a validated QueryRequest. -/
def wellFormedParams (p : SalesQueryParams) : Prop :=
  (match p.page with | some n => 1 ≤ n | none => False) ∧
  (match p.pageSize with | some n => 1 ≤ n ∧ n ≤ 100 | none => False) ∧
  (match p.filters with
   | some f =>
     (match f.ageMin with | some a => 0 ≤ a | none => True) ∧
     (match f.ageMax with | some a => 0 ≤ a | none => True) ∧
     (match f.priceMin with | some a => 0 ≤ a | none => True) ∧
     (match f.priceMax with | some a => 0 ≤ a | none => True) ∧
     (match f.dateFrom with | some s => (jsNewDate s).isSome = true | none => True) ∧
     (match f.dateTo with | some s => (jsNewDate s).isSome = true | none => True)
   | none => False)

/-! ## Sample data for concrete evaluations -/

/-- A concrete record used by witness statements. -/
def blankSales : Sales :=
  { id := "T1"
    date := 0
    customerId := "C1"
    customerName := "Asha Rao"
    phoneNumber := "9876543210"
    gender := "Female"
    age := 30
    customerRegion := "South"
    customerType := "Member"
    productId := "P1"
    productName := "Desk Lamp"
    brand := "Lumina"
    productCategory := "Home"
    tags := ["lighting", "desk"]
    quantity := 2
    pricePerUnit := 499
    discountPercentage := 10
    totalAmount := 998
    finalAmount := 898
    paymentMethod := "UPI"
    orderStatus := "Delivered"
    deliveryType := "Standard"
    storeId := "S1"
    storeLocation := "Chennai"
    salespersonId := "E1"
    employeeName := "Ravi" }

/-- A record whose region is the empty string. -/
def emptyRegionSales : Sales := { blankSales with customerRegion := "" }

/-- A record dated 2024-01-01 23:59:59 UTC. -/
def lateNightSales : Sales := { blankSales with date := 1704067200000 + 86399000 }

/-! ## Helper lemmas -/

theorem evalWhere_eq_all (s : Option String) (f : Option SalesFilters) (r : Sales) :
    evalWhere (buildWhereClause s f) r = (whereConditions s f).all (evalCondition r) := by
  unfold buildWhereClause
  by_cases h : whereConditions s f = []
  · simp [h, evalWhere]
  · simp [h, evalWhere]

theorem condCount_eq_length (s : Option String) (f : Option SalesFilters) :
    condCount (buildWhereClause s f) = (whereConditions s f).length := by
  unfold buildWhereClause
  by_cases h : whereConditions s f = []
  · simp [h, condCount]
  · simp [h, condCount]

theorem jsTrim_empty : jsTrim "" = "" := by decide

theorem all_searchSeg (s : Option String) (r : Sales) :
    (searchSeg s).all (evalCondition r) = specSearch s r := by
  cases s with
  | none => rfl
  | some s =>
    by_cases h : jsTrim s = ""
    · have hs : ¬ (s ≠ "" ∧ jsTrim s ≠ "") := by tauto
      simp [searchSeg, specSearch, hs, h]
    · have hs0 : s ≠ "" := by
        intro he
        rw [he, jsTrim_empty] at h
        exact h rfl
      simp [searchSeg, specSearch, hs0, h, evalCondition]

theorem all_inSeg (fld : StrField) (o : Option (List String)) (r : Sales) :
    (inSeg fld o).all (evalCondition r) = specIn fld o r := by
  cases o with
  | none => rfl
  | some l =>
    cases l with
    | nil => simp [inSeg, specIn]
    | cons a t => simp [inSeg, specIn, evalCondition]

theorem all_tagsSeg (o : Option (List String)) (r : Sales) :
    (tagsSeg o).all (evalCondition r) = specTags o r := by
  cases o with
  | none => rfl
  | some l =>
    cases l with
    | nil => simp [tagsSeg, specTags]
    | cons a t =>
      have h1 : tagsSeg (some (a :: t)) = [SalesCondition.tagsHasSome (a :: t)] := by
        simp [tagsSeg]
      have h2 : specTags (some (a :: t)) r = (r.tags.any fun x => (a :: t).contains x) := by
        simp only [specTags]
        rw [if_neg (by simp)]
      rw [h1, h2, Bool.eq_iff_iff]
      simp only [List.all_cons, List.all_nil, Bool.and_true, evalCondition,
        List.any_eq_true, List.contains, List.elem_eq_mem, decide_eq_true_eq]
      exact ⟨fun ⟨x, hx1, hx2⟩ => ⟨x, hx2, hx1⟩, fun ⟨x, hx1, hx2⟩ => ⟨x, hx2, hx1⟩⟩

theorem all_ageSeg (aMin aMax : Option Int) (r : Sales) :
    (ageSeg aMin aMax).all (evalCondition r) = specAge aMin aMax r := by
  cases aMin <;> cases aMax <;> simp [ageSeg, specAge, evalCondition]

theorem jsNewDate_midnight (s : String) (t : Int) (h : jsNewDate s = some t) :
    ∃ d, t = 86400000 * d := by
  cases hp : parseISODays s with
  | none => rw [jsNewDate, hp] at h; exact absurd h (by simp)
  | some d =>
    rw [jsNewDate, hp] at h
    refine ⟨d, ?_⟩
    simp only [Option.map, Option.some.injEq, msPerDay] at h
    exact h.symm

theorem jsNewDate_endOfDay (s : String) (t : Int) (h : jsNewDate s = some t) :
    endOfDayUTC t = t + 86399999 := by
  obtain ⟨d, rfl⟩ := jsNewDate_midnight s t h
  unfold endOfDayUTC msPerDay
  rw [Int.mul_ediv_cancel_left _ (by norm_num)]
  ring

theorem all_dateSeg (dFrom dTo : Option String) (r : Sales) :
    (dateSeg dFrom dTo).all (evalCondition r) = specDate dFrom dTo r := by
  cases dFrom with
  | none =>
    cases dTo with
    | none => rfl
    | some s2 =>
      by_cases h2 : s2 = ""
      · simp [dateSeg, specDate, strOptTruthy, h2]
      · cases hj2 : jsNewDate s2 with
        | none => simp [dateSeg, specDate, strOptTruthy, h2, hj2, evalCondition]
        | some t2 =>
          simp [dateSeg, specDate, strOptTruthy, h2, hj2, evalCondition,
            jsNewDate_endOfDay s2 t2 hj2]
  | some s1 =>
    by_cases h1 : s1 = ""
    · cases dTo with
      | none => simp [dateSeg, specDate, strOptTruthy, h1]
      | some s2 =>
        by_cases h2 : s2 = ""
        · simp [dateSeg, specDate, strOptTruthy, h1, h2]
        · cases hj2 : jsNewDate s2 with
          | none => simp [dateSeg, specDate, strOptTruthy, h1, h2, hj2, evalCondition]
          | some t2 =>
            simp [dateSeg, specDate, strOptTruthy, h1, h2, hj2, evalCondition,
              jsNewDate_endOfDay s2 t2 hj2]
    · cases hj1 : jsNewDate s1 with
      | none =>
        cases dTo with
        | none => simp [dateSeg, specDate, strOptTruthy, h1, hj1, evalCondition]
        | some s2 =>
          by_cases h2 : s2 = ""
          · simp [dateSeg, specDate, strOptTruthy, h1, h2, hj1, evalCondition]
          · cases hj2 : jsNewDate s2 with
            | none => simp [dateSeg, specDate, strOptTruthy, h1, h2, hj1, hj2, evalCondition]
            | some t2 =>
              simp [dateSeg, specDate, strOptTruthy, h1, h2, hj1, hj2, evalCondition,
                jsNewDate_endOfDay s2 t2 hj2]
      | some t1 =>
        cases dTo with
        | none => simp [dateSeg, specDate, strOptTruthy, h1, hj1, evalCondition]
        | some s2 =>
          by_cases h2 : s2 = ""
          · simp [dateSeg, specDate, strOptTruthy, h1, h2, hj1, evalCondition]
          · cases hj2 : jsNewDate s2 with
            | none => simp [dateSeg, specDate, strOptTruthy, h1, h2, hj1, hj2, evalCondition]
            | some t2 =>
              simp [dateSeg, specDate, strOptTruthy, h1, h2, hj1, hj2, evalCondition,
                jsNewDate_endOfDay s2 t2 hj2]

theorem all_priceSeg (pMin pMax : Option Rat) (r : Sales) :
    (priceSeg pMin pMax).all (evalCondition r) = specPrice pMin pMax r := by
  cases pMin <;> cases pMax <;> simp [priceSeg, specPrice, evalCondition]

theorem len_searchSeg (s : Option String) :
    (searchSeg s).length =
      (match s with
       | some s => if jsTrim s = "" then 0 else 1
       | none => 0) := by
  cases s with
  | none => rfl
  | some s =>
    by_cases h : jsTrim s = ""
    · have hs : ¬ (s ≠ "" ∧ jsTrim s ≠ "") := by tauto
      simp [searchSeg, hs, h]
    · have hs0 : s ≠ "" := by
        intro he
        rw [he, jsTrim_empty] at h
        exact h rfl
      simp [searchSeg, hs0, h]

theorem len_inSeg (fld : StrField) (o : Option (List String)) :
    (inSeg fld o).length =
      (match o with
       | some l => if l = [] then 0 else 1
       | none => 0) := by
  cases o with
  | none => rfl
  | some l => cases l <;> simp [inSeg]

theorem len_tagsSeg (o : Option (List String)) :
    (tagsSeg o).length =
      (match o with
       | some l => if l = [] then 0 else 1
       | none => 0) := by
  cases o with
  | none => rfl
  | some l => cases l <;> simp [tagsSeg]

theorem len_ageSeg (aMin aMax : Option Int) :
    (ageSeg aMin aMax).length = if aMin.isSome ∨ aMax.isSome then 1 else 0 := by
  cases aMin <;> cases aMax <;> simp [ageSeg]

theorem len_dateSeg (dFrom dTo : Option String) :
    (dateSeg dFrom dTo).length =
      if strOptTruthy dFrom ∨ strOptTruthy dTo then 1 else 0 := by
  by_cases h : strOptTruthy dFrom ∨ strOptTruthy dTo
  · have hb : (strOptTruthy dFrom || strOptTruthy dTo) = true := by
      rcases h with h | h <;> simp [h]
    simp [dateSeg, hb, h]
  · have hb : (strOptTruthy dFrom || strOptTruthy dTo) = false := by
      push_neg at h
      simp [h.1, h.2]
    simp [dateSeg, hb, h]

theorem len_priceSeg (pMin pMax : Option Rat) :
    (priceSeg pMin pMax).length = if pMin.isSome ∨ pMax.isSome then 1 else 0 := by
  cases pMin <;> cases pMax <;> simp [priceSeg]

/-! ## C1 -/

/-- C1: for every optional search term and FilterSet the compiled
where-clause evaluates to the conjunction the specification describes —
one condition per present filter, absent or empty filters contributing
nothing — and it carries exactly one condition per present filter, so in
particular zero emitted conditions match every record. -/
theorem c1_whereClause_is_spec_conjunction (s : Option String)
    (f : Option SalesFilters) (r : Sales) :
    evalWhere (buildWhereClause s f) r = specMatches s f r ∧
    condCount (buildWhereClause s f) = presentCount s f := by
  constructor
  · rw [evalWhere_eq_all]
    cases f with
    | none => simp [whereConditions, specMatches, all_searchSeg]
    | some f =>
      simp only [whereConditions, List.all_append, all_searchSeg, all_inSeg,
        all_tagsSeg, all_ageSeg, all_dateSeg, all_priceSeg, specMatches,
        Bool.and_assoc]
  · rw [condCount_eq_length]
    cases f with
    | none => simp [whereConditions, presentCount, len_searchSeg]
    | some f =>
      simp only [whereConditions, List.length_append, len_searchSeg, len_inSeg,
        len_tagsSeg, len_ageSeg, len_dateSeg, len_priceSeg, presentCount]

/-! ## C2 -/

/-- C2: a present `dateFrom`/`dateTo` pair compiles to a single date-range
condition bounded inclusively below at `dateFrom`'s day start and above at
`dateTo`'s day end (start + 86399999 ms = 23:59:59.999); with one bound
present only that bound constrains; and with `dateFrom = dateTo` the
predicate matches exactly the records whose timestamp falls on that
calendar day. -/
theorem c2_date_range_day_bounds (s1 s2 : String) (t1 t2 : Int) (r : Sales)
    (h1 : jsNewDate s1 = some t1) (h2 : jsNewDate s2 = some t2)
    (hs1 : s1 ≠ "") (hs2 : s2 ≠ "") :
    (evalWhere (buildWhereClause none
        (some { dateFrom := some s1, dateTo := some s2 })) r = true
      ↔ t1 ≤ r.date ∧ r.date ≤ t2 + 86399999) ∧
    (evalWhere (buildWhereClause none (some { dateFrom := some s1 })) r = true
      ↔ t1 ≤ r.date) ∧
    (evalWhere (buildWhereClause none (some { dateTo := some s2 })) r = true
      ↔ r.date ≤ t2 + 86399999) ∧
    (s1 = s2 →
      (evalWhere (buildWhereClause none
          (some { dateFrom := some s1, dateTo := some s2 })) r = true
        ↔ r.date / 86400000 = t1 / 86400000)) := by
  have hboth : evalWhere (buildWhereClause none
      (some { dateFrom := some s1, dateTo := some s2 })) r = true
      ↔ t1 ≤ r.date ∧ r.date ≤ t2 + 86399999 := by
    rw [evalWhere_eq_all]
    simp [whereConditions, searchSeg, inSeg, tagsSeg, ageSeg, dateSeg, priceSeg,
      strOptTruthy, hs1, hs2, h1, h2, evalCondition,
      jsNewDate_endOfDay s2 t2 h2]
  refine ⟨hboth, ?_, ?_, ?_⟩
  · rw [evalWhere_eq_all]
    simp [whereConditions, searchSeg, inSeg, tagsSeg, ageSeg, dateSeg, priceSeg,
      strOptTruthy, hs1, h1, evalCondition]
  · rw [evalWhere_eq_all]
    simp [whereConditions, searchSeg, inSeg, tagsSeg, ageSeg, dateSeg, priceSeg,
      strOptTruthy, hs2, h2, evalCondition, jsNewDate_endOfDay s2 t2 h2]
  · intro he
    rw [hboth]
    rw [he] at h1
    rw [h1] at h2
    have t12 : t1 = t2 := Option.some.inj h2
    subst t12
    obtain ⟨d, rfl⟩ := jsNewDate_midnight s2 t1 h1
    omega

/-- Witness for C2 at 2024-01-01: the bound request matches a record dated
2024-01-01 23:59:59 UTC, since that timestamp lies on the requested day. -/
theorem c2_witness :
    jsNewDate "2024-01-01" = some 1704067200000 ∧
    (evalWhere (buildWhereClause none
        (some { dateFrom := some "2024-01-01", dateTo := some "2024-01-01" }))
        lateNightSales = true
      ↔ lateNightSales.date / 86400000 = 1704067200000 / 86400000) := by
  refine ⟨by decide, ?_⟩
  exact (c2_date_range_day_bounds "2024-01-01" "2024-01-01" 1704067200000
    1704067200000 lateNightSales (by decide) (by decide) (by decide)
    (by decide)).2.2.2 rfl

/-! ## C8 -/

/-- C8: buildOrderBy realises exactly the fixed sort table, and an absent,
empty or unrecognized token falls back to newest-first by date. -/
theorem c8_buildOrderBy_table :
    buildOrderBy none = ⟨.date, .desc⟩ ∧
    buildOrderBy (some "date-newest") = ⟨.date, .desc⟩ ∧
    buildOrderBy (some "date-oldest") = ⟨.date, .asc⟩ ∧
    buildOrderBy (some "quantity-high") = ⟨.quantity, .desc⟩ ∧
    buildOrderBy (some "quantity-low") = ⟨.quantity, .asc⟩ ∧
    buildOrderBy (some "name-asc") = ⟨.customerName, .asc⟩ ∧
    buildOrderBy (some "name-desc") = ⟨.customerName, .desc⟩ ∧
    ∀ s : String, s ∉ (["date-newest", "date-oldest", "quantity-high",
        "quantity-low", "name-asc", "name-desc"] : List String) →
      buildOrderBy (some s) = ⟨.date, .desc⟩ := by
  refine ⟨rfl, by decide, by decide, by decide, by decide, by decide, by decide, ?_⟩
  intro s hs
  simp only [List.mem_cons, List.not_mem_nil, or_false, not_or] at hs
  obtain ⟨n1, n2, n3, n4, n5, n6⟩ := hs
  simp only [buildOrderBy]
  split_ifs <;> simp_all

/-- Witness for C8: an unrecognized token resolves to the default. -/
theorem c8_witness : buildOrderBy (some "bogus") = ⟨.date, .desc⟩ :=
  c8_buildOrderBy_table.2.2.2.2.2.2.2 "bogus" (by decide)

/-! ## C10 -/

theorem parseNonnegInt_nonneg (o : Option RawValue) (a : Int)
    (h : parseNonnegInt o = some a) : 0 ≤ a := by
  unfold parseNonnegInt at h
  split at h
  · split at h
    · split at h
      · rename_i hn
        have := Option.some.inj h
        omega
      · exact absurd h (by simp)
    · exact absurd h (by simp)
  · exact absurd h (by simp)

theorem parseNonnegFloat_nonneg (o : Option RawValue) (a : Rat)
    (h : parseNonnegFloat o = some a) : 0 ≤ a := by
  unfold parseNonnegFloat at h
  split at h
  · split at h
    · split at h
      · rename_i hn
        rw [← Option.some.inj h]
        exact hn
      · exact absurd h (by simp)
    · exact absurd h (by simp)
  · exact absurd h (by simp)

theorem parseDateParam_valid (o : Option RawValue) (s : String)
    (h : parseDateParam o = some s) : (jsNewDate s).isSome = true := by
  unfold parseDateParam at h
  split at h
  · rename_i hc
    rw [← Option.some.inj h]
    exact hc.2
  · exact absurd h (by simp)

theorem validate_page_pos (q : RawQuery) :
    ∃ n, (validateQueryParams q).page = some n ∧ 1 ≤ n := by
  simp only [validateQueryParams]
  split
  · split
    · split
      · rename_i n heq hn
        exact ⟨n, rfl, by omega⟩
      · exact ⟨1, rfl, le_refl 1⟩
    · exact ⟨1, rfl, le_refl 1⟩
  · exact ⟨1, rfl, le_refl 1⟩

theorem validate_pageSize_bounds (q : RawQuery) :
    ∃ n, (validateQueryParams q).pageSize = some n ∧ 1 ≤ n ∧ n ≤ 100 := by
  simp only [validateQueryParams]
  split
  · split
    · split
      · rename_i n heq hn
        exact ⟨n, rfl, by omega⟩
      · exact ⟨10, rfl, by omega⟩
    · exact ⟨10, rfl, by omega⟩
  · exact ⟨10, rfl, by omega⟩

/-- C10: every QueryRequest produced by validateQueryParams is well
formed: page at least 1, pageSize within 1..100, retained numeric bounds
nonnegative, retained date strings parseable, filters always attached. -/
theorem c10_validated_params_wellFormed (q : RawQuery) :
    wellFormedParams (validateQueryParams q) := by
  obtain ⟨np, hp, hp1⟩ := validate_page_pos q
  obtain ⟨ns, hs, hs1, hs2⟩ := validate_pageSize_bounds q
  unfold wellFormedParams
  rw [hp, hs]
  have hf : (validateQueryParams q).filters = some (parseFilters q) := rfl
  rw [hf]
  refine ⟨hp1, ⟨hs1, hs2⟩, ?_, ?_, ?_, ?_, ?_, ?_⟩
  · cases h : (parseFilters q).ageMin with
    | none => trivial
    | some a => exact parseNonnegInt_nonneg q.ageMin a h
  · cases h : (parseFilters q).ageMax with
    | none => trivial
    | some a => exact parseNonnegInt_nonneg q.ageMax a h
  · cases h : (parseFilters q).priceMin with
    | none => trivial
    | some a => exact parseNonnegFloat_nonneg q.priceMin a h
  · cases h : (parseFilters q).priceMax with
    | none => trivial
    | some a => exact parseNonnegFloat_nonneg q.priceMax a h
  · cases h : (parseFilters q).dateFrom with
    | none => trivial
    | some s => exact parseDateParam_valid q.dateFrom s h
  · cases h : (parseFilters q).dateTo with
    | none => trivial
    | some s => exact parseDateParam_valid q.dateTo s h

/-! ## Trim idempotence -/

theorem dropWhile_self (p : Char → Bool) (l : List Char) :
    (l.dropWhile p).dropWhile p = l.dropWhile p := by
  induction l with
  | nil => rfl
  | cons a t ih =>
    by_cases h : p a
    · rw [List.dropWhile_cons_of_pos h]
      exact ih
    · rw [List.dropWhile_cons_of_neg h, List.dropWhile_cons_of_neg h]

theorem dropWhile_length_le (p : Char → Bool) (l : List Char) :
    (l.dropWhile p).length ≤ l.length := by
  induction l with
  | nil => simp
  | cons a t ih =>
    by_cases h : p a
    · rw [List.dropWhile_cons_of_pos h]
      exact Nat.le_trans ih (Nat.le_succ _)
    · rw [List.dropWhile_cons_of_neg h]

theorem trimLeft_trimRight_fixed (l : List Char)
    (h : trimLeftChars l = l) : trimLeftChars (trimRightChars l) = trimRightChars l := by
  cases l with
  | nil => rfl
  | cons a t =>
    have ha : ¬ (Char.isWhitespace a = true) := by
      intro hc
      rw [trimLeftChars, List.dropWhile_cons_of_pos hc] at h
      have hlen := dropWhile_length_le Char.isWhitespace t
      rw [h] at hlen
      simp at hlen
    rw [trimRightChars, List.reverse_cons, List.dropWhile_append]
    by_cases he : (t.reverse.dropWhile Char.isWhitespace).isEmpty
    · rw [if_pos he]
      have h1 : List.dropWhile Char.isWhitespace [a] = [a] :=
        List.dropWhile_cons_of_neg ha
      rw [h1]
      rw [show List.reverse [a] = [a] from rfl]
      rw [trimLeftChars, List.dropWhile_cons_of_neg ha]
    · rw [if_neg he, List.reverse_append]
      rw [show List.reverse [a] = [a] from rfl]
      rw [show ([a] : List Char) ++ (t.reverse.dropWhile Char.isWhitespace).reverse =
        a :: (t.reverse.dropWhile Char.isWhitespace).reverse from rfl]
      rw [trimLeftChars, List.dropWhile_cons_of_neg ha]

theorem jsTrim_idem (s : String) : jsTrim (jsTrim s) = jsTrim s := by
  show String.mk (trimRightChars (trimLeftChars (trimRightChars (trimLeftChars s.data)))) =
    String.mk (trimRightChars (trimLeftChars s.data))
  have hL : trimLeftChars (trimLeftChars s.data) = trimLeftChars s.data :=
    dropWhile_self _ _
  have h1 : trimLeftChars (trimRightChars (trimLeftChars s.data)) =
      trimRightChars (trimLeftChars s.data) :=
    trimLeft_trimRight_fixed _ hL
  rw [h1]
  show String.mk ((((trimLeftChars s.data).reverse.dropWhile Char.isWhitespace).reverse.reverse.dropWhile Char.isWhitespace).reverse) = _
  rw [List.reverse_reverse, dropWhile_self]
  rfl

/-! ## C3 -/

/-- A raw query whose search value is a single space. -/
def wsSearchQuery : RawQuery := { search := some (.str " ") }

/-- Counterexample to C3: a whitespace-only `search` is a string that is
empty after trimming, yet the validated request carries a present (empty)
search term — not an absent one. -/
theorem c3_counterexample :
    (validateQueryParams wsSearchQuery).search = some "" ∧ jsTrim " " = "" := by
  constructor
  · decide
  · decide

/-- C3 (amended): the validated search term is present exactly when the
raw `search` is a non-empty string, and then equals its trim — which is
the empty string for a whitespace-only input, not an absent term; such an
empty term produces the same compiled where-clause as an absent search,
so the behaviour downstream is identical. -/
theorem c3_search_trimming_amended (q : RawQuery) :
    (∀ s, q.search = some (.str s) → s ≠ "" →
      (validateQueryParams q).search = some (jsTrim s)) ∧
    ((q.search = none ∨ q.search = some (.str "") ∨ (∃ l, q.search = some (.arr l))) →
      (validateQueryParams q).search = none) ∧
    (∀ s f, jsTrim s = "" →
      buildWhereClause (some s) f = buildWhereClause none f) := by
  refine ⟨?_, ?_, ?_⟩
  · intro s hq hs
    simp [validateQueryParams, hq, hs]
  · rintro (hq | hq | ⟨l, hq⟩) <;> simp [validateQueryParams, hq]
  · intro s f hs
    have hseg : searchSeg (some s) = searchSeg none := by
      simp [searchSeg, hs]
    have hcond : whereConditions (some s) f = whereConditions none f := by
      simp only [whereConditions, hseg]
    unfold buildWhereClause
    rw [hcond]

/-- Witness for C3 (amended): a padded search is kept trimmed, and a
whitespace-only search compiles to the same clause as no search. -/
theorem c3_witness :
    (validateQueryParams { search := some (.str "  hi ") }).search = some "hi" ∧
    buildWhereClause (some " ") none = buildWhereClause none none := by
  constructor
  · have h := (c3_search_trimming_amended { search := some (.str "  hi ") }).1
      "  hi " rfl (by decide)
    rw [h]
    decide
  · exact (c3_search_trimming_amended { search := some (.str " ") }).2.2 " " none
      (by decide)

/-! ## C4 -/

/-- Counterexample to C4: an array-supplied multi-select value is kept
verbatim — its elements are not trimmed (nor comma-split), so an element
need not equal its own trim. -/
theorem c4_counterexample :
    parseArrayParam (.arr [" a "]) = [" a "] ∧ jsTrim " a " ≠ " a " := by
  constructor
  · decide
  · decide

/-- C4 (amended): a string-supplied multi-select value is comma-split,
token-trimmed and cleaned of empties, so each resulting element is
non-empty and equal to its own trim; an array-supplied value instead keeps
verbatim exactly its elements whose trim is non-empty (they are neither
split on commas nor trimmed). -/
theorem c4_parseArrayParam_amended (s : String) (l : List String) :
    parseArrayParam (.str s) =
      ((jsSplitComma s).map jsTrim).filter (fun x => x ≠ "") ∧
    (∀ x ∈ parseArrayParam (.str s), x ≠ "" ∧ jsTrim x = x) ∧
    parseArrayParam (.arr l) = l.filter (fun item => jsTrim item ≠ "") ∧
    (∀ x ∈ parseArrayParam (.arr l), x ∈ l ∧ jsTrim x ≠ "") := by
  refine ⟨rfl, ?_, rfl, ?_⟩
  · intro x hx
    simp only [parseArrayParam, List.mem_filter, List.mem_map,
      decide_eq_true_eq] at hx
    obtain ⟨⟨tok, htok, rfl⟩, hne⟩ := hx
    exact ⟨hne, jsTrim_idem tok⟩
  · intro x hx
    simp only [parseArrayParam, List.mem_filter, decide_eq_true_eq] at hx
    exact hx

/-- Witness for C4 (amended) on a concrete comma-separated string. -/
theorem c4_witness :
    parseArrayParam (.str " a ,, b") = ["a", "b"] ∧
    ("a" ≠ "" ∧ jsTrim "a" = "a") := by
  constructor
  · decide
  · exact (c4_parseArrayParam_amended " a ,, b" []).2.1 "a" (by decide)

/-! ## C5 -/

/-- C5: validation is a total function of the raw query (its embedding is
a plain Lean function, mirroring that no code path throws), and every
malformed or out-of-range input degrades: a bad page falls back to 1, a
bad page size to 10, an array sort token is dropped, and a bad age, date
or price bound is silently dropped from the filters. -/
theorem c5_validation_never_fails (q : RawQuery) :
    ((validateQueryParams q).page.isSome ∧ (validateQueryParams q).pageSize.isSome ∧
      (validateQueryParams q).filters = some (parseFilters q)) ∧
    (∀ v, q.page = some v → jsParseInt (rawToString v) = none →
      (validateQueryParams q).page = some 1) ∧
    (∀ v n, q.page = some v → jsParseInt (rawToString v) = some n → n ≤ 0 →
      (validateQueryParams q).page = some 1) ∧
    (∀ v, q.pageSize = some v → jsParseInt (rawToString v) = none →
      (validateQueryParams q).pageSize = some 10) ∧
    (∀ v n, q.pageSize = some v → jsParseInt (rawToString v) = some n →
      (n ≤ 0 ∨ 100 < n) → (validateQueryParams q).pageSize = some 10) ∧
    (∀ l, q.sort = some (.arr l) → (validateQueryParams q).sort = none) ∧
    (∀ v, q.ageMin = some v → jsParseInt (rawToString v) = none →
      (parseFilters q).ageMin = none) ∧
    (∀ v n, q.ageMin = some v → jsParseInt (rawToString v) = some n → n < 0 →
      (parseFilters q).ageMin = none) ∧
    (∀ v, q.dateFrom = some v → jsNewDate (rawToString v) = none →
      (parseFilters q).dateFrom = none) ∧
    (∀ v, q.priceMin = some v → jsParseFloat (rawToString v) = none →
      (parseFilters q).priceMin = none) ∧
    (∀ v p, q.priceMin = some v → jsParseFloat (rawToString v) = some p → p < 0 →
      (parseFilters q).priceMin = none) := by
  refine ⟨⟨?_, ?_, rfl⟩, ?_, ?_, ?_, ?_, ?_, ?_, ?_, ?_, ?_, ?_⟩
  · obtain ⟨n, hn, -⟩ := validate_page_pos q
    rw [hn]; rfl
  · obtain ⟨n, hn, -⟩ := validate_pageSize_bounds q
    rw [hn]; rfl
  · intro v hv hparse
    simp only [validateQueryParams, hv]
    split
    · rw [show rawToStr (some v) = rawToString v from rfl, hparse]
    · rfl
  · intro v n hv hparse hn
    simp only [validateQueryParams, hv]
    split
    · rw [show rawToStr (some v) = rawToString v from rfl, hparse]
      show (if 0 < n then some n else some 1) = some 1
      rw [if_neg (by omega)]
    · rfl
  · intro v hv hparse
    simp only [validateQueryParams, hv]
    split
    · rw [show rawToStr (some v) = rawToString v from rfl, hparse]
    · rfl
  · intro v n hv hparse hn
    simp only [validateQueryParams, hv]
    split
    · rw [show rawToStr (some v) = rawToString v from rfl, hparse]
      show (if 0 < n ∧ n ≤ 100 then some n else some 10) = some 10
      rw [if_neg (by omega)]
    · rfl
  · intro l hl
    simp [validateQueryParams, hl]
  · intro v hv hparse
    show parseNonnegInt q.ageMin = none
    unfold parseNonnegInt
    rw [hv]
    split
    · rw [show rawToStr (some v) = rawToString v from rfl, hparse]
    · rfl
  · intro v n hv hparse hn
    show parseNonnegInt q.ageMin = none
    unfold parseNonnegInt
    rw [hv]
    split
    · rw [show rawToStr (some v) = rawToString v from rfl, hparse]
      show (if 0 ≤ n then some n else none) = none
      rw [if_neg (by omega)]
    · rfl
  · intro v hv hparse
    show parseDateParam q.dateFrom = none
    unfold parseDateParam
    rw [hv]
    have hval : isValidDate (rawToStr (some v)) = false := by
      show (jsNewDate (rawToString v)).isSome = false
      rw [hparse]
      rfl
    rw [if_neg (by simp [hval])]
  · intro v hv hparse
    show parseNonnegFloat q.priceMin = none
    unfold parseNonnegFloat
    rw [hv]
    split
    · rw [show rawToStr (some v) = rawToString v from rfl, hparse]
    · rfl
  · intro v p hv hparse hp
    show parseNonnegFloat q.priceMin = none
    unfold parseNonnegFloat
    rw [hv]
    split
    · rw [show rawToStr (some v) = rawToString v from rfl, hparse]
      show (if 0 ≤ p then some p else none) = none
      rw [if_neg (not_le.mpr hp)]
    · rfl

/-- A raw query in which every readable key is malformed. -/
def badQuery : RawQuery :=
  { page := some (.str "abc")
    pageSize := some (.str "1000")
    sort := some (.arr ["x"])
    ageMin := some (.str "-5")
    dateFrom := some (.str "not-a-date")
    priceMin := some (.str "-1.5") }

/-- Witness for C5: the fully malformed query degrades everywhere and
still yields a well-typed request. -/
theorem c5_witness :
    (validateQueryParams badQuery).page = some 1 ∧
    (validateQueryParams badQuery).pageSize = some 10 ∧
    (validateQueryParams badQuery).sort = none ∧
    (parseFilters badQuery).ageMin = none ∧
    (parseFilters badQuery).dateFrom = none ∧
    (parseFilters badQuery).priceMin = none := by
  obtain ⟨-, hpage, -, -, hps, hsort, -, hage, hdate, -, hprice⟩ :=
    c5_validation_never_fails badQuery
  refine ⟨hpage (.str "abc") rfl (by decide),
    hps (.str "1000") 1000 rfl (by decide) (by decide),
    hsort ["x"] rfl,
    hage (.str "-5") (-5) rfl (by decide) (by decide),
    hdate (.str "not-a-date") rfl (by decide),
    hprice (.str "-1.5") (-(mkRat 15 10)) rfl (by decide) (by decide)⟩

/-! ## C6 -/

/-- C6: when the pagination offset (page − 1) × pageSize reaches or passes
the number of records matching the compiled predicate, getSales returns an
empty data array while totalRecords still reports the true matching
count. -/
theorem c6_offset_beyond_matches_empty_page (db : List Sales)
    (params : SalesQueryParams) (page pageSize : Int)
    (hp : params.page = some page) (hps : params.pageSize = some pageSize)
    (_h1 : 1 ≤ page) (_h2 : 1 ≤ pageSize)
    (hoff : ((db.filter (fun r =>
        evalWhere (buildWhereClause params.search params.filters) r)).length : Int)
      ≤ (page - 1) * pageSize) :
    (getSales db params).data = [] ∧
    (getSales db params).totalRecords =
      (db.filter (fun r =>
        evalWhere (buildWhereClause params.search params.filters) r)).length := by
  refine ⟨?_, rfl⟩
  simp only [getSales, hp, hps, Option.getD_some]
  rw [List.drop_eq_nil_of_le]
  · simp
  · rw [List.length_insertionSort]
    omega

/-- Page 5 of a ten-row page size. -/
def paramsPage5 : SalesQueryParams := { page := some 5, pageSize := some 10 }

/-- Witness for C6: one matching record, page 5 requested — empty page,
true count still 1. -/
theorem c6_witness :
    (getSales [blankSales] paramsPage5).data = [] ∧
    (getSales [blankSales] paramsPage5).totalRecords = 1 := by
  have h := c6_offset_beyond_matches_empty_page [blankSales] paramsPage5 5 10
    rfl rfl (by decide) (by decide) (by decide)
  exact ⟨h.1, h.2⟩

/-! ## C7 -/

theorem ceil_div_eq_add_pred_div (a n : Nat) (hn : 1 ≤ n) :
    ⌈(a : ℚ) / (n : ℚ)⌉ = (((a + n - 1) / n : Nat) : Int) := by
  have hn0 : (0 : ℚ) < (n : ℚ) := by exact_mod_cast hn
  have hq := Nat.div_add_mod (a + n - 1) n
  have hmlt : (a + n - 1) % n < n := Nat.mod_lt _ (by omega)
  set m := (a + n - 1) / n with hmdef
  set r := (a + n - 1) % n with hrdef
  obtain ⟨k, hk⟩ : ∃ k, n * m = k := ⟨_, rfl⟩
  rw [hk] at hq
  have hub : a ≤ k := by omega
  have hlb : k < a + n := by omega
  rw [Int.ceil_eq_iff]
  constructor
  · rw [lt_div_iff₀ hn0]
    have hlb2 : (m : ℚ) * (n : ℚ) < (a : ℚ) + (n : ℚ) := by
      have : (n * m : ℚ) < (a : ℚ) + (n : ℚ) := by exact_mod_cast hk ▸ hlb
      linarith [this, mul_comm (m : ℚ) (n : ℚ)]
    push_cast
    nlinarith [hlb2]
  · rw [div_le_iff₀ hn0]
    have hub2 : (a : ℚ) ≤ (m : ℚ) * (n : ℚ) := by
      have : (a : ℚ) ≤ (n * m : ℚ) := by exact_mod_cast hk ▸ hub
      linarith [this, mul_comm (m : ℚ) (n : ℚ)]
    push_cast
    exact hub2

/-- C7: the totalPages value of getSales is the ceiling of totalRecords
divided by pageSize, and is 0 when totalRecords is 0. -/
theorem c7_totalPages_is_ceiling (db : List Sales) (params : SalesQueryParams)
    (n : Nat) (hps : params.pageSize = some (n : Int)) (hn : 1 ≤ n) :
    (getSales db params).totalPages =
      ((((getSales db params).totalRecords + n - 1) / n : Nat) : Int) ∧
    ((getSales db params).totalRecords = 0 → (getSales db params).totalPages = 0) := by
  have htp : (getSales db params).totalPages =
      ⌈(((getSales db params).totalRecords : ℚ)) / (((n : Int) : ℚ))⌉ := by
    simp only [getSales, hps, Option.getD_some]
  constructor
  · rw [htp]
    rw [show (((n : Int)) : ℚ) = (n : ℚ) by push_cast; ring]
    exact ceil_div_eq_add_pred_div _ n hn
  · intro h0
    rw [htp, h0]
    simp

/-- Witness for C7: one matching record with page size 10 gives
totalPages 1 = ceiling(1/10) computed by the Nat formula. -/
theorem c7_witness :
    (getSales [blankSales] paramsPage5).totalPages =
      ((((getSales [blankSales] paramsPage5).totalRecords + 10 - 1) / 10 : Nat) : Int) :=
  (c7_totalPages_is_ceiling [blankSales] paramsPage5 10 rfl (by decide)).1

/-! ## C9 -/

theorem distinctSorted_spec (l : List String) :
    (distinctSorted l).Sorted (· ≤ ·) ∧ (distinctSorted l).Nodup ∧
    (∀ v, v ∈ distinctSorted l ↔ (v ≠ "" ∧ v ∈ l)) := by
  refine ⟨?_, ?_, ?_⟩
  · exact List.sorted_insertionSort _ _
  · exact ((List.perm_insertionSort _ _).nodup_iff).mpr (List.nodup_dedup _)
  · intro v
    rw [distinctSorted, List.mem_insertionSort, List.mem_dedup, List.mem_filter]
    simp only [decide_eq_true_eq]
    exact ⟨fun h => ⟨h.2, h.1⟩, fun h => ⟨h.2, h.1⟩⟩

/-- Counterexample to C9: an empty-string field value is a distinct value
present in the dataset, yet the catalog omits it (the code filters falsy
values before deduplicating). -/
theorem c9_counterexample :
    "" ∈ [emptyRegionSales].map (fun r => r.customerRegion) ∧
    "" ∉ (getFilterOptions [emptyRegionSales]).customerRegions := by
  constructor
  · decide
  · decide

/-- C9 (amended): for every dataset and every set-membership filter field,
the catalog holds exactly the distinct non-empty values present anywhere
in the dataset (empty strings are dropped as falsy), sorted and without
duplicates; the tags catalog draws from every record's flattened tag
collection. -/
theorem c9_filter_catalog_amended (db : List Sales) :
    ((getFilterOptions db).customerRegions.Sorted (· ≤ ·) ∧
     (getFilterOptions db).customerRegions.Nodup ∧
     (∀ v, v ∈ (getFilterOptions db).customerRegions ↔
       (v ≠ "" ∧ v ∈ db.map (fun r => r.customerRegion)))) ∧
    ((getFilterOptions db).genders.Sorted (· ≤ ·) ∧
     (getFilterOptions db).genders.Nodup ∧
     (∀ v, v ∈ (getFilterOptions db).genders ↔
       (v ≠ "" ∧ v ∈ db.map (fun r => r.gender)))) ∧
    ((getFilterOptions db).productCategories.Sorted (· ≤ ·) ∧
     (getFilterOptions db).productCategories.Nodup ∧
     (∀ v, v ∈ (getFilterOptions db).productCategories ↔
       (v ≠ "" ∧ v ∈ db.map (fun r => r.productCategory)))) ∧
    ((getFilterOptions db).paymentMethods.Sorted (· ≤ ·) ∧
     (getFilterOptions db).paymentMethods.Nodup ∧
     (∀ v, v ∈ (getFilterOptions db).paymentMethods ↔
       (v ≠ "" ∧ v ∈ db.map (fun r => r.paymentMethod)))) ∧
    ((getFilterOptions db).orderStatuses.Sorted (· ≤ ·) ∧
     (getFilterOptions db).orderStatuses.Nodup ∧
     (∀ v, v ∈ (getFilterOptions db).orderStatuses ↔
       (v ≠ "" ∧ v ∈ db.map (fun r => r.orderStatus)))) ∧
    ((getFilterOptions db).deliveryTypes.Sorted (· ≤ ·) ∧
     (getFilterOptions db).deliveryTypes.Nodup ∧
     (∀ v, v ∈ (getFilterOptions db).deliveryTypes ↔
       (v ≠ "" ∧ v ∈ db.map (fun r => r.deliveryType)))) ∧
    ((getFilterOptions db).brands.Sorted (· ≤ ·) ∧
     (getFilterOptions db).brands.Nodup ∧
     (∀ v, v ∈ (getFilterOptions db).brands ↔
       (v ≠ "" ∧ v ∈ db.map (fun r => r.brand)))) ∧
    ((getFilterOptions db).tags.Sorted (· ≤ ·) ∧
     (getFilterOptions db).tags.Nodup ∧
     (∀ v, v ∈ (getFilterOptions db).tags ↔
       (v ≠ "" ∧ ∃ r ∈ db, v ∈ r.tags))) := by
  refine ⟨distinctSorted_spec _, distinctSorted_spec _, distinctSorted_spec _,
    distinctSorted_spec _, distinctSorted_spec _, distinctSorted_spec _,
    distinctSorted_spec _, ?_⟩
  obtain ⟨hs, hnd, hm⟩ := distinctSorted_spec (db.flatMap (fun r => r.tags))
  refine ⟨hs, hnd, fun v => ?_⟩
  show v ∈ distinctSorted (db.flatMap fun r => r.tags) ↔ _
  rw [hm v, List.mem_flatMap]
